import Mathlib

/-!
Verification of the parkes-controller REST layer.

The development shallowly embeds the code of `src/lib/restHandler.js`,
`src/lib/parkesController.js`, `src/lib/mergeQueryParams.js` and the
pagination helper.  JavaScript objects that are used as string maps are
modelled as association lists with unique keys; `Object.assign` and
property reads/writes are modelled by `objAssign`, `objGet`, `objSet`.
External npm libraries are modelled as parameters (`pluralize.singular`)
or by small faithful definitions (`_.capitalize`, `qs.stringify` without
URL escaping, which none of the verified inputs need).
-/

namespace Parkes

/-- Model of a JavaScript object used as a string-to-string map:
an association list, read by first match (`objGet`), written by
replace-in-place-or-append (`objSet`), which is JavaScript property
assignment and preserves property insertion order. -/
abbrev Obj := List (String × String)

/-- Property read `o[k]`: first entry with the key.  On objects with
unique keys (every object a JavaScript program can build) this is the
value of the property. -/
def objGet : Obj → String → Option String
  | [], _ => none
  | p :: ps, k => if p.1 = k then some p.2 else objGet ps k

/-- The `Object.keys` membership test. -/
def objHas : Obj → String → Bool
  | [], _ => false
  | p :: ps, k => p.1 = k || objHas ps k

/-- Replaces every entry holding the key, keeping property order. -/
def objSetReplace : Obj → String → String → Obj
  | [], _, _ => []
  | p :: ps, k, v => (if p.1 = k then (k, v) else p) :: objSetReplace ps k v

/-- Property write `o[k] = v`: replaces the value in place when the key
exists (keeping property order, as JavaScript does) and appends the new
property otherwise. -/
def objSet (o : Obj) (k v : String) : Obj :=
  if objHas o k then objSetReplace o k v else o ++ [(k, v)]

/-- Property deletion `delete o[k]`. -/
def objDelete (o : Obj) (k : String) : Obj :=
  o.filter (fun p => ¬ p.1 = k)

/-- The keys of the object, as `Object.keys` returns them. -/
def objKeys (o : Obj) : List String := o.map Prod.fst

/-- An association list that corresponds to a JavaScript object: keys are
unique. -/
def ObjWF (o : Obj) : Bool := (o.map Prod.fst).Nodup

/-- `Object.assign(a, b)`: copies the properties of `b` onto `a` in
order. -/
def objAssign (a b : Obj) : Obj :=
  b.foldl (fun acc p => objSet acc p.1 p.2) a

/-- String interpolation of a possibly-undefined value, as a JavaScript
template literal renders it. -/
def objGetJs (o : Obj) (k : String) : String :=
  (objGet o k).getD "undefined"

theorem objGet_eq_none_of_not_has (o : Obj) (k : String)
    (h : objHas o k = false) : objGet o k = none := by
  induction o with
  | nil => rfl
  | cons p ps ih =>
      simp only [objHas, Bool.or_eq_false_iff, decide_eq_false_iff_not] at h
      simp [objGet, h.1, ih h.2]

theorem objGet_isSome_eq_objHas (o : Obj) (k : String) :
    (objGet o k).isSome = objHas o k := by
  induction o with
  | nil => rfl
  | cons p ps ih =>
      by_cases h : p.1 = k <;> simp [objGet, objHas, h, ih]

theorem objGet_append (a b : Obj) (k : String) :
    objGet (a ++ b) k = (objGet a k).or (objGet b k) := by
  induction a with
  | nil => simp [objGet]
  | cons p ps ih =>
      by_cases h : p.1 = k <;> simp [objGet, h, ih]

theorem objGet_objSetReplace (o : Obj) (k v k' : String) :
    objGet (objSetReplace o k v) k' =
      if k' = k then (if objHas o k then some v else none) else objGet o k' := by
  induction o with
  | nil => by_cases h : k' = k <;> simp [objGet, objSetReplace, objHas, h]
  | cons p ps ih =>
      by_cases hpk : p.1 = k
      · by_cases h : k' = k
        · subst h; simp [objSetReplace, objGet, objHas, hpk]
        · have hkk' : ¬ k = k' := fun hh => h hh.symm
          simp [objSetReplace, objGet, objHas, hpk, h, hkk', ih]
      · by_cases hpk' : p.1 = k'
        · have hne : ¬ k' = k := fun hh => hpk (by rw [hpk', hh])
          simp [objSetReplace, objGet, hpk, hpk', hne]
        · simp [objSetReplace, objGet, objHas, hpk, hpk', ih]

theorem objGet_objSet (o : Obj) (k v k' : String) :
    objGet (objSet o k v) k' = if k' = k then some v else objGet o k' := by
  unfold objSet
  by_cases hh : objHas o k
  · rw [if_pos hh, objGet_objSetReplace]
    by_cases h : k' = k <;> simp [h, hh]
  · rw [if_neg (by simp [hh]), objGet_append]
    by_cases h : k' = k
    · rw [h, objGet_eq_none_of_not_has o k (by simpa using hh)]
      simp [objGet]
    · have hkk' : ¬ k = k' := fun hkk => h hkk.symm
      simp [objGet, hkk', h]

theorem objGet_eq_none_of_not_mem (o : Obj) (k : String)
    (h : k ∉ o.map Prod.fst) : objGet o k = none := by
  induction o with
  | nil => rfl
  | cons p ps ih =>
      simp only [List.map_cons, List.mem_cons] at h
      push_neg at h
      simp only [objGet]
      rw [if_neg (fun hh => h.1 hh.symm)]
      exact ih h.2

theorem objGet_objAssign (a b : Obj) (k : String) (hb : ObjWF b = true) :
    objGet (objAssign a b) k = (objGet b k).or (objGet a k) := by
  induction b generalizing a with
  | nil => simp [objAssign, objGet]
  | cons p ps ih =>
      have hb' : (p.1 :: ps.map Prod.fst).Nodup := by
        simpa [ObjWF, decide_eq_true_iff] using hb
      rw [List.nodup_cons] at hb'
      have hwf : ObjWF ps = true := by
        simp [ObjWF, decide_eq_true_iff, hb'.2]
      have hnot : p.1 ∉ ps.map Prod.fst := hb'.1
      show objGet (objAssign (objSet a p.1 p.2) ps) k = _
      rw [ih _ hwf, objGet_objSet]
      by_cases h : k = p.1
      · have hps : objGet ps k = none := by
          apply objGet_eq_none_of_not_mem
          rw [h]; exact hnot
        rw [if_pos h, hps]
        simp only [objGet]
        rw [if_pos h.symm]
        simp [Option.or]
      · have hcons : objGet (p :: ps) k = objGet ps k := by
          simp only [objGet]
          rw [if_neg (fun hh => h hh.symm)]
        rw [hcons, if_neg h]

/-- Koa request context, restricted to the parts the library reads:
query-string map, route-parameter map, parsed body data and the request
href. -/
structure Ctx where
  query : Obj
  params : Obj
  body : Option Obj
  href : String

/-- Source: `src/lib/mergeQueryParams.js`.  Returns a new object merging
`ctx.query` and `ctx.params` (`Object.assign` onto a fresh object);
the two source objects are only read, never written. -/
def mergeQueryParams (ctx : Ctx) : Obj :=
  objAssign (objAssign [] ctx.query) ctx.params

theorem objGet_objAssign_nil (q : Obj) (hq : ObjWF q = true) (k : String) :
    objGet (objAssign [] q) k = objGet q k := by
  rw [objGet_objAssign [] q k hq]
  cases objGet q k <;> simp [objGet, Option.or]

/-- C6: merging query and route parameters yields the union of the two
key sets, route parameters win on common keys, and (by construction,
`Object.assign` onto a fresh object) neither input map is modified. -/
theorem C6_mergeQueryParams (ctx : Ctx)
    (hq : ObjWF ctx.query = true) (hp : ObjWF ctx.params = true) (k : String) :
    objGet (mergeQueryParams ctx) k = (objGet ctx.params k).or (objGet ctx.query k) ∧
    ((objGet (mergeQueryParams ctx) k).isSome
      = (objHas ctx.params k || objHas ctx.query k)) := by
  have h1 : objGet (mergeQueryParams ctx) k
      = (objGet ctx.params k).or (objGet ctx.query k) := by
    unfold mergeQueryParams
    rw [objGet_objAssign _ _ k hp, objGet_objAssign_nil _ hq]
  refine ⟨h1, ?_⟩
  rw [h1, ← objGet_isSome_eq_objHas, ← objGet_isSome_eq_objHas]
  cases objGet ctx.params k <;> cases objGet ctx.query k <;> simp [Option.or]

/-- Witness for C6 at a concrete context. -/
theorem C6_mergeQueryParams_witness :
    objGet (mergeQueryParams ⟨[("a", "1"), ("b", "2")], [("b", "9")], none, ""⟩) "b"
        = (objGet [("b", "9")] "b").or (objGet [("a", "1"), ("b", "2")] "b") ∧
      ((objGet (mergeQueryParams ⟨[("a", "1"), ("b", "2")], [("b", "9")], none, ""⟩) "b").isSome
        = (objHas [("b", "9")] "b" || objHas [("a", "1"), ("b", "2")] "b")) :=
  C6_mergeQueryParams ⟨[("a", "1"), ("b", "2")], [("b", "9")], none, ""⟩
    (by decide) (by decide) "b"

/-! External library models and error values. -/

/-- The pluralize npm module, abstracted: the development only uses that
`singular` is some function on strings. -/
structure JsLib where
  singular : String → String

/-- JavaScript `toLowerCase`, modelled character-wise (ASCII). -/
def jsToLower (s : String) : String := ⟨s.data.map Char.toLower⟩

/-- JavaScript `toUpperCase`, modelled character-wise (ASCII). -/
def jsToUpper (s : String) : String := ⟨s.data.map Char.toUpper⟩

/-- Lodash `_.capitalize`: first character upper-cased, the rest
lower-cased. -/
def lodashCapitalize (s : String) : String :=
  ⟨(s.data.take 1).map Char.toUpper ++ (s.data.drop 1).map Char.toLower⟩

/-- Source `restHandler.js` line 398: `_.capitalize(pluralize.singular(name))`. -/
def modelNameOf (js : JsLib) (name : String) : String :=
  lodashCapitalize (js.singular name)

/-- Source `restHandler.js` line 402: `pluralize.singular(name).toLowerCase()`. -/
def paramNameOf (js : JsLib) (name : String) : String :=
  jsToLower (js.singular name)

/-- Error payload of the parkes-rest-error RestError class, as the
library constructs it with `{ status, code, message }`. -/
structure RestError where
  status : Nat
  code : String
  message : String
deriving DecidableEq, Repr

/-- A thrown JavaScript value: a RestError, a TypeError raised by the
runtime, or a plain Error. -/
inductive JsErr
  | rest (e : RestError)
  | typeError (msg : String)
  | jsError (msg : String)
deriving DecidableEq, Repr

/-- Source `restHandler.js` lines 410 to 413: the body reads
`pluralize.signular(name)`.  The property `signular` does not exist on
the pluralize module (the name is a misspelling of `singular`), so its
value is `undefined` and the call raises a TypeError for every input. -/
def columnKeyName (_nm _key : String) : Except JsErr String :=
  .error (.typeError "pluralize.signular is not a function")

/-- Source `restHandler.js` lines 406 to 408. -/
def columnIdName (nm : String) : Except JsErr String :=
  columnKeyName nm "id"

/-! Query-shape data produced by the handler and consumed by the ORM. -/

/-- A sequelize include entry as `buildFilterIncludes` builds it:
`{ model, as, where, required }`, with the model class represented by
its name in the models map. -/
structure Include where
  modelClassName : String
  asName : String
  whereC : Obj
  required : Bool
deriving DecidableEq, Repr

/-- An element of `options.scopeModels`: a plain string (the simple
shorthand) or an object entry with a `name` property (the complex form,
unimplemented in the source). -/
inductive ScopeModel
  | simple (name : String)
  | complex (name : String)
deriving DecidableEq, Repr

/-- An element of the `foreignKeys` argument of `mapForeignKeyToId`:
a string shorthand or a `{ modelName, attribute }` pair. -/
inductive ForeignKey
  | shorthand (s : String)
  | full (model : String) (attr : String)
deriving DecidableEq, Repr

/-- One conjunct pushed onto `where[Op.and]` by `index`: either a plain
attribute equality from `filterAttributes`, or the `Op.or` of
case-insensitive substring matches that the `?q=` search builds. -/
inductive WhereFrag
  | eqF (attr : String) (value : String)
  | searchF (fields : List String) (q : String)
deriving DecidableEq, Repr

/-- The where clause `index` assembles: the base object plus the
`Op.and` conjunct list. -/
structure WhereX where
  base : Obj
  andFrags : List WhereFrag
deriving DecidableEq, Repr

/-- The query object `find` passes to `modelClass.findOne`: the where
clause, the include list (absent in the `mapForeignKeyToId` lookup) and
the caller-supplied query fragment merged over it. -/
structure FindQ where
  whereC : Obj
  incl : Option (List Include)
  extra : Obj
deriving DecidableEq, Repr

/-- The query object `buildFindAllQuery` and `paginate` assemble for
`findAll` / `findAndCountAll`. -/
structure FindAllQ where
  whereC : WhereX
  sort : String
  order : String
  incl : List Include
  distinct : Bool
  extra : Obj
  limit : Nat
  offset : Nat
deriving DecidableEq, Repr

/-! Options and the two constructors. -/

/-- Source `restHandler.js` lines 68 to 69. -/
def DEFAULT_RESTRICTED : List String :=
  ["id", "uuid", "password", "permission", "internal",
   "privateKey", "publicKey", "userId", "organisationId"]

/-- The value of `options.authorize` as the ParkesController constructor
distinguishes it: absent or otherwise falsy (but not `false`), the
literal `false`, or a truthy function. -/
inductive AuthorizeOpt
  | undef
  | explicitFalse
  | fn
deriving DecidableEq, Repr

/-- The options object passed to the constructors, before defaulting:
`none` fields are absent (`undefined`) properties.  `models` is
represented by the list of model names the map contains. -/
structure CtorOptions where
  models : Option (List String) := none
  authorize : AuthorizeOpt := .undef
  defaultPageLength : Option Nat := none
  filterAttributes : Option (List String) := none
  incl : Option (List Include) := none
  resourceIdColumn : Option String := none
  scopeModels : Option (List ScopeModel) := none
  search : Option (List String) := none
  restricted : Option (List String) := none
  allowed : Option (List String) := none

/-- The fully defaulted `this.options` record the RestHandler
constructor leaves behind (lines 77 to 101 of `restHandler.js`). -/
structure Options where
  defaultPageLength : Nat
  filterAttributes : List String
  incl : List Include
  resourceIdColumn : String
  scopeModels : List ScopeModel
  search : List String
  allowed : List String
  restricted : List String
  resourceIdColumnSuffix : String
deriving DecidableEq, Repr

/-- Source `restHandler.js` lines 77 to 101: `_.defaults`, the
restricted-list default (defaults plus the id column, deduplicated with
first occurrences kept, as `[...new Set(list)]` does), the allowed-list
filtering and the capitalized id-column suffix. -/
def computeOptions (c : CtorOptions) : Options :=
  let resourceIdColumn := c.resourceIdColumn.getD "uuid"
  let allowed := c.allowed.getD []
  let restricted0 :=
    match c.restricted with
    | some r => r
    | none => (DEFAULT_RESTRICTED ++ [resourceIdColumn]).eraseDups
  let restricted :=
    if allowed.length > 0 then
      restricted0.filter (fun r => !(allowed.contains r))
    else restricted0
  { defaultPageLength := c.defaultPageLength.getD 100
    filterAttributes := c.filterAttributes.getD []
    incl := c.incl.getD []
    resourceIdColumn := resourceIdColumn
    scopeModels := c.scopeModels.getD []
    search := c.search.getD ["name"]
    allowed := allowed
    restricted := restricted
    resourceIdColumnSuffix := lodashCapitalize resourceIdColumn }

/-- The RestHandler instance fields set by the constructor. -/
structure Handler where
  options : Options
  name : String
  modelNames : List String
deriving DecidableEq, Repr

/-- Source `restHandler.js` lines 72 to 109: the constructor validation
and field computation.  A missing options object would raise a TypeError
on the `options.models` read. -/
def restHandlerNew (js : JsLib) (name : Option String) (copt : Option CtorOptions) :
    Except JsErr Handler :=
  if name.getD "" = "" then
    .error (.jsError "You must pass a model name to RestHandler constructor")
  else
    match copt with
    | none => .error (.typeError "Cannot read properties of undefined")
    | some c =>
        match c.models with
        | none => .error (.jsError "You must supply options.models to the RestHandler constructor")
        | some modelNames =>
            let opts := computeOptions c
            let nm := modelNameOf js (name.getD "")
            if modelNames.contains nm then
              .ok { options := opts, name := nm, modelNames := modelNames }
            else
              .error (.jsError ("Model " ++ nm ++ " cannot be found in options.models"))

/-- Tests whether `(options.authorize !== false) && (!options.authorize)`
holds, i.e. the authorize option is falsy without being the literal
`false`. -/
def authorizeMissing : AuthorizeOpt → Bool
  | .undef => true
  | .explicitFalse => false
  | .fn => false

/-- Source `parkesController.js` lines 29 to 40: the authorize guard,
then the RestHandler construction over the same options object. -/
def parkesControllerNew (js : JsLib) (name : Option String) (copt : Option CtorOptions) :
    Except JsErr Handler :=
  let o := copt.getD {}
  if authorizeMissing o.authorize then
    .error (.jsError "options.authorize is undefined and must be explicitly set to false to skip authorization")
  else
    restHandlerNew js name copt

/-! Pagination helper (the unnamed pagination source file). -/

/-- JavaScript `v || d` over a possibly-undefined string: the default is
taken when the value is absent or the empty string. -/
def jsOrStr (v : Option String) (d : String) : String :=
  match v with
  | some s => if s = "" then d else s
  | none => d

/-- Leading decimal-digit run of a string, the part `parseInt(s, 10)`
consumes; `none` when the string parses to NaN.  Signs and leading
whitespace are not modelled (no verified input uses them). -/
def parseLeadingNat (s : String) : Option Nat :=
  let ds := s.data.takeWhile Char.isDigit
  if ds = [] then none else some (ds.foldl (fun n c => n * 10 + (c.toNat - 48)) 0)

/-- JavaScript `parseInt(x, 10) || d`: parseInt of a missing value or of
a string with no digits is NaN; NaN and 0 are falsy, so `||` yields the
default. -/
def jsParseIntOr (v : Option String) (d : Nat) : Nat :=
  match v with
  | none => d
  | some s =>
      match parseLeadingNat s with
      | none => d
      | some 0 => d
      | some n => n

/-- The qs module `stringify`: ampersand-joined `key=value` pairs in
property order.  URL escaping is not modelled; the verified inputs only
carry unreserved characters. -/
def qsStringify (o : Obj) : String :=
  String.intercalate "&" (o.map (fun p => p.1 ++ "=" ++ p.2))

/-- The page-info envelope `formatPaginate` returns. -/
structure Pagination where
  total : Nat
  pages : Nat
  prevUrl : Option String
  nextUrl : Option String
  offset : Nat
  limit : Nat
deriving DecidableEq, Repr

/-- Collection plus pagination, the result shape of `index`. -/
structure PageData where
  collection : List Obj
  pagination : Pagination
deriving DecidableEq, Repr

/-- Source: `formatPaginate` in the pagination file (unnamed part 001,
lines 26 to 57).  `prevUrl` and `nextUrl` are `false` (here `none`) or
the slug plus the stringified query; the query object is first given the
upper-cased `type` / pruned `parentId` treatment of the source, then the
limit, then the offset is written twice in sequence as the source
mutates `newQuery`.  `Math.ceil(total / limit)` becomes the integer
formula `(total + limit - 1) / limit`, its value for every positive
limit; the two unused source parameters (`sort`, `order`) are dropped.
The leading `parseInt(offset, 10)` re-parse of a number is the identity
on the naturals modelled here. -/
def formatPaginate (data : List Obj) (total limit offset : Nat)
    (slug : String) (query : Obj) : PageData :=
  let pages := (total + limit - 1) / limit
  let query1 :=
    match objGet query "type" with
    | some t => if t = "" then objDelete query "type" else objSet query "type" (jsToUpper t)
    | none => objDelete query "type"
  let query2 :=
    if (objGet query1 "parentId").getD "" = "" then objDelete query1 "parentId" else query1
  let newQuery := objAssign (objAssign [] query2) [("limit", toString limit)]
  let prevQuery := objSet newQuery "offset" (toString (max ((offset : Int) - (limit : Int)) 0).toNat)
  let prevUrl := if offset > 0 then some (slug ++ "?" ++ qsStringify prevQuery) else none
  let afterPrev := if offset > 0 then prevQuery else newQuery
  let nextQuery := objSet afterPrev "offset" (toString (offset + limit))
  let nextUrl := if total > offset + limit then some (slug ++ "?" ++ qsStringify nextQuery) else none
  ⟨data, ⟨total, pages, prevUrl, nextUrl, offset, limit⟩⟩

/-- Source: `buildFindAllQuery` in the pagination file:
`{ where, order: [[sort, order]], include, distinct: true }` merged with
the caller-supplied query fragment, with `sort` / `order` defaulted from
the query string by `||`. -/
def buildFindAllQuery (ctx : Ctx) (incl : List Include) (whereC : WhereX) (extra : Obj) :
    FindAllQ :=
  let sort := jsOrStr (objGet ctx.query "sort") "id"
  let order := jsOrStr (objGet ctx.query "order") "DESC"
  ⟨whereC, sort, order, incl, true, extra, 0, 0⟩

/-! Events, the database environment and the run-result shapes. -/

/-- The `model` property of an authorize call: the model class itself
(create), a fetched record, or the listed collection. -/
inductive AuthModel
  | cls
  | record (r : Obj)
  | coll (rs : List Obj)
deriving DecidableEq, Repr

/-- The options object the controller passes to the caller-supplied
authorize function: action, model, the computed authorisation scopes
when requested, the isPrivate flag, and the raw post body on create. -/
structure AuthArgs where
  action : String
  model : AuthModel
  scopes : Option (List String)
  isPrivate : Bool
  postBody : Option (Option Obj)
deriving DecidableEq, Repr

/-- What the controller stores in `ctx.state.data`: a record or the
paginated result. -/
inductive StateData
  | record (r : Obj)
  | page (p : PageData)
deriving DecidableEq, Repr

/-- Observable steps of a request, in execution order: event-emitter
emissions, lifecycle-hook dispatches, authorize calls, ORM reads, ORM
writes and the `ctx.state.data` assignment. -/
inductive Ev
  | emitE (name : String)
  | hookE (name : String)
  | authE (args : AuthArgs)
  | findOneE (model : String) (q : FindQ)
  | findAndCountE (q : FindAllQ)
  | dbCreateE (payload : Obj)
  | dbUpdateE (payload : Obj)
  | dbDestroyE
  | stateDataE (d : StateData)
deriving DecidableEq, Repr

/-- The ORM and model-map behaviour the handler runs against: results of
the sequelize calls, and the optional per-model `whereByAlias` class
hook. -/
structure ModelsEnv where
  whereByAliasHook : String → Option (String → Obj)
  findOne : String → FindQ → Option Obj
  createRow : Obj → Obj
  updateRow : Obj → Obj → Obj
  destroyRow : Obj → Obj
  findAndCountAll : FindAllQ → Nat × List Obj

/-- Result of a RestHandler operation: the trace of observable steps,
the returned or thrown value and the `this.options` record after the
call. -/
structure RHOut (α : Type) where
  trace : List Ev
  res : Except JsErr α
  optionsAfter : Options

/-- Result of a controller action: trace, the `ctx.state.data` slot,
the outcome and the rest handler options after the call. -/
structure PCOut where
  trace : List Ev
  stateData : Option StateData
  res : Except JsErr Unit
  optionsAfter : Options

/-! RestHandler operations (`src/lib/restHandler.js`). -/

/-- Source lines 117 to 129: collects the restricted fields present in
the payload and throws a 400 RestError naming them when there is at
least one; otherwise returns the empty bad-field list. -/
def blockRestrictedKeys (opts : Options) (newRecord : Obj) : Except JsErr (List String) :=
  let keys := objKeys newRecord
  let badFields := opts.restricted.filter (fun k => keys.contains k)
  if badFields.length ≠ 0 then
    .error (.rest ⟨400, "restricted field",
      "You may not update the fields: " ++ String.intercalate ", " badFields⟩)
  else
    .ok badFields

/-- Source lines 137 to 141: the scope-model names (lodash
`_.intersection` keeps the string elements; an object element is never
equal to a key) present among the merged parameter keys. -/
def scopesPresent (opts : Options) (ctx : Ctx) : List String :=
  let allParams := mergeQueryParams ctx
  opts.scopeModels.filterMap (fun m =>
    match m with
    | .simple s => if objHas allParams s then some s else none
    | .complex _ => none)

/-- Source lines 144 to 148. -/
def whereByResourceId (key : String) (record : Obj) : Obj :=
  [(key, objGetJs record key)]

/-- Source lines 252 to 261: the per-model `whereByAlias` class hook
when the model defines one, else `{ [resourceIdColumn]: key }`. -/
def whereByAlias (env : ModelsEnv) (opts : Options) (key : String) (model : String) : Obj :=
  match env.whereByAliasHook model with
  | some f => f key
  | none => [(opts.resourceIdColumn, key)]

/-- Normalization of a foreign-key element (source lines 174 to 181):
the string shorthand becomes `{ modelName: modelName(foreign),
attribute: foreign }`. -/
def normalizeForeignKey (js : JsLib) : ForeignKey → String × String
  | .shorthand s => (modelNameOf js s, s)
  | .full m a => (m, a)

/-- Source lines 170 to 203.  Every iteration evaluates `columnIdName`
first, which raises the `pluralize.signular` TypeError, so the loop body
throws on its first element and only an empty list returns the record.
The `.ok` continuation below renders the intent of the then-callback
(alias lookup, 404 on a missing row, id assignment, alias deletion); it
is unreachable, and the source would in any case not await it: the
`promises` array stays empty, so `Promise.all` does not wait for the
lookups. -/
def mapForeignKeyToId (js : JsLib) (opts : Options) (env : ModelsEnv)
    (record : Obj) (foreignKeys : List ForeignKey) : Except JsErr Obj :=
  foreignKeys.foldlM (fun rec fk =>
    let f := normalizeForeignKey js fk
    match columnIdName f.2 with
    | .error e => .error e
    | .ok i =>
        match columnKeyName f.2 opts.resourceIdColumn with
        | .error e => .error e
        | .ok key =>
            if (objGet rec key).getD "" ≠ "" then
              match env.findOne f.1 ⟨whereByResourceId key rec, none, []⟩ with
              | some m => .ok (objDelete (objSet rec i (objGetJs m "id")) key)
              | none => .error (.rest ⟨404, "",
                  "Could not find " ++ f.2 ++ " with " ++ opts.resourceIdColumn ++
                    " " ++ objGetJs rec key⟩)
            else .ok rec) record

/-- Source line 221 evaluates `paramName(modelName)`: `modelName` is the
module-level helper function, not the loop variable, so
`pluralize.singular` receives a function value and calls
`.toLowerCase()` on it, which raises a TypeError. -/
def paramNameOfFunctionValue : Except JsErr String :=
  .error (.typeError "word.toLowerCase is not a function")

/-- The string a function coerces to when used as a property key, as in
`allParams[paramName]` on source line 225; no request parameter object
carries this key. -/
def functionSourceKey : String := "function paramName(name) [source text]"

/-- Source lines 209 to 247.  The loop body raises the
`paramNameOfFunctionValue` TypeError on every element (see above), so a
non-empty `filterModels` list throws and only the empty list returns
normally (with no includes).  The `.ok` continuation translates the rest
of the body, unreachable in the source. -/
def buildFilterIncludes (js : JsLib) (h : Handler) (env : ModelsEnv) (ctx : Ctx)
    (filterModels : List ScopeModel) : Except JsErr (List Include) :=
  let allParams := mergeQueryParams ctx
  filterModels.foldlM (fun includes model =>
    let simple := match model with | .simple _ => true | .complex _ => false
    let modelClassName :=
      match model with
      | .simple s => modelNameOf js s
      | .complex n => n
    match paramNameOfFunctionValue with
    | .error e => .error e
    | .ok queryName =>
        if (objGet allParams functionSourceKey).getD "" ≠ "" then
          if simple then
            .ok (includes ++ [⟨modelClassName, modelClassName,
              whereByAlias env h.options (objGetJs allParams queryName) modelClassName,
              true⟩])
          else .error (.jsError "Complex include filtering not implemented yet")
        else .ok includes) []

/-- Source lines 263 to 265. -/
def filterIncludes (js : JsLib) (h : Handler) (env : ModelsEnv) (ctx : Ctx) :
    Except JsErr (List Include) :=
  buildFilterIncludes js h env ctx h.options.scopeModels

/-- Source lines 268 to 291, at the call shape the controller uses
(no `_opts` overrides, so the include list is `this.options.include` and
the extra query fragment is empty).  Emits `beforeFind`, queries,
emits `afterFind`, then throws the 404 not-found RestError naming the
resource and the id value when the row is missing. -/
def findIdValue (js : JsLib) (h : Handler) (ctx : Ctx) : String :=
  objGetJs ctx.params (paramNameOf js h.name)

/-- The query object `find` passes to `findOne`:
`Object.assign({ where: whereByAlias(...) }, query)` with the include
list added. -/
def findQuery (js : JsLib) (h : Handler) (env : ModelsEnv) (ctx : Ctx) : FindQ :=
  ⟨whereByAlias env h.options (findIdValue js h ctx) h.name, some h.options.incl, []⟩

/-- Source lines 268 to 291, body of `find`. -/
def findOp (js : JsLib) (h : Handler) (env : ModelsEnv) (ctx : Ctx) : RHOut Obj :=
  let idVal := findIdValue js h ctx
  let q : FindQ := findQuery js h env ctx
  let tr := [Ev.emitE "beforeFind", Ev.findOneE h.name q, Ev.emitE "afterFind"]
  match env.findOne h.name q with
  | some data => ⟨tr, .ok data, h.options⟩
  | none => ⟨tr, .error (.rest ⟨404, "not found",
      "Resource " ++ h.name ++ " with " ++ h.options.resourceIdColumn ++ " " ++
        idVal ++ " was not found"⟩), h.options⟩

/-- Source lines 296 to 298. -/
def showOp (js : JsLib) (h : Handler) (env : ModelsEnv) (ctx : Ctx) : RHOut Obj :=
  findOp js h env ctx

/-- Source lines 419 to 436: merges the filter includes over the default
includes; an include for a model that already has one replaces it (the
`Object.assign` of the original and the new include is the new include
in this total-record model), appended at the end as the source pushes
it. -/
def mergeIncludes (includes newIncludes : List Include) : List Include :=
  newIncludes.foldl (fun newArray incl =>
    match newArray.find? (fun o => o.modelClassName == incl.modelClassName) with
    | some original => (newArray.filter (fun o => !(o == original))) ++ [incl]
    | none => newArray ++ [incl]) includes

/-- The part of `ctx.href` before the question mark,
`ctx.href.split(querySep)[0]` in the source. -/
def hrefSlug (href : String) : String :=
  ⟨href.data.takeWhile (fun c => !(c = '?'))⟩

/-- Source: `paginate` in the pagination file (lines 14 to 24): builds
the findAll query, adds limit and offset from the query string with
defaults, runs `findAndCountAll` and formats the envelope with the slug
(href up to the question mark) and the query map. -/
def paginateOp (env : ModelsEnv) (opts : Options) (ctx : Ctx)
    (incl : List Include) (whereC : WhereX) (extra : Obj) : List Ev × PageData :=
  let q0 := buildFindAllQuery ctx incl whereC extra
  let limit := jsParseIntOr (objGet ctx.query "limit") opts.defaultPageLength
  let offset := jsParseIntOr (objGet ctx.query "offset") 0
  let q : FindAllQ := { q0 with limit := limit, offset := offset }
  let r := env.findAndCountAll q
  let slug := hrefSlug ctx.href
  ([Ev.findAndCountE q], formatPaginate r.2 r.1 limit offset slug ctx.query)

/-- Source lines 301 to 343, at the call shape the controller uses
(no `_opts`: include is `this.options.include`, where and query are
empty, the paginated branch runs).  Builds the filter includes (which
throws for a non-empty scope-model list), merges them, adds the `?q=`
search disjunction and the filter-attribute conjuncts, emits
`beforeIndex`, paginates and emits `afterIndex`. -/
def indexOp (js : JsLib) (h : Handler) (env : ModelsEnv) (ctx : Ctx) : RHOut PageData :=
  let w0 : WhereX := ⟨[], []⟩
  match buildFilterIncludes js h env ctx h.options.scopeModels with
  | .error e => ⟨[], .error e, h.options⟩
  | .ok fIncludes =>
      let incl := mergeIncludes h.options.incl fIncludes
      let w1 :=
        match objGet ctx.query "q" with
        | some qv =>
            if qv = "" then w0 else ⟨w0.base, w0.andFrags ++ [.searchF h.options.search qv]⟩
        | none => w0
      let w2 := h.options.filterAttributes.foldl (fun w attr =>
        if objHas ctx.query attr then
          ⟨w.base, w.andFrags ++ [.eqF attr (objGetJs ctx.query attr)]⟩
        else w) w1
      let p := paginateOp env h.options ctx incl w2 []
      ⟨[Ev.emitE "beforeIndex"] ++ p.1 ++ [Ev.emitE "afterIndex"], .ok p.2, h.options⟩

/-- Source lines 346 to 364: empty-body 400, the restricted-key guard,
the `beforeCreate` emission and proxy-hook dispatch (the proxy never
rejects: it fires the controller hook without awaiting it), the ORM
create and the `afterCreate` emission. -/
def createOp (h : Handler) (env : ModelsEnv) (ctx : Ctx) : RHOut Obj :=
  match ctx.body with
  | none => ⟨[], .error (.rest ⟨400, "empty body",
      "The data attribute in the body must not be empty"⟩), h.options⟩
  | some newRecord =>
      match blockRestrictedKeys h.options newRecord with
      | .error e => ⟨[], .error e, h.options⟩
      | .ok _ =>
          let m := env.createRow newRecord
          ⟨[Ev.emitE "beforeCreate", Ev.hookE "beforeCreate",
            Ev.dbCreateE newRecord, Ev.emitE "afterCreate"], .ok m, h.options⟩

/-- Source lines 367 to 386: as `createOp`, then `record.update`. -/
def updateOp (h : Handler) (env : ModelsEnv) (ctx : Ctx) (record : Obj) : RHOut Obj :=
  match ctx.body with
  | none => ⟨[], .error (.rest ⟨400, "empty body",
      "The data attribute in the body must not be empty"⟩), h.options⟩
  | some newRecord =>
      match blockRestrictedKeys h.options newRecord with
      | .error e => ⟨[], .error e, h.options⟩
      | .ok _ =>
          let updated := env.updateRow record newRecord
          ⟨[Ev.emitE "beforeUpdate", Ev.hookE "beforeUpdate",
            Ev.dbUpdateE newRecord, Ev.emitE "afterUpdate"], .ok updated, h.options⟩

/-- Source lines 389 to 395. -/
def destroyOp (h : Handler) (env : ModelsEnv) (_ctx : Ctx) (record : Obj) : RHOut Obj :=
  let d := env.destroyRow record
  ⟨[Ev.emitE "beforeDestroy", Ev.dbDestroyE, Ev.emitE "afterDestroy"], .ok d, h.options⟩

/-! ParkesController actions (`src/lib/parkesController.js`). -/

/-- The controller configuration: whether `options.authorize` is the
literal `false`, the caller-supplied authorize function (which may
throw), the controller subclass lifecycle hooks (which may throw), the
parkes-router `isPrivate` flag of the request, and the raw
`options.resourceIdColumn` (the controller reads it off its own
un-defaulted options in `verifyIncludes`). -/
structure CtrlCfg where
  authorizeFalse : Bool
  auth : Ctx → AuthArgs → Except JsErr Unit
  hookFn : String → Except JsErr Unit
  isPrivate : Bool
  ctorResourceIdColumn : Option String

/-- Source lines 52 to 65: returns at once when `options.authorize` is
the literal `false`; otherwise computes the scope list when requested
and calls the caller-supplied function. -/
def authorizeCall (cfg : CtrlCfg) (opts : Options) (ctx : Ctx) (action : String)
    (model : AuthModel) (wantScopes : Bool) (postBody : Option (Option Obj)) :
    List Ev × Except JsErr Unit :=
  if cfg.authorizeFalse then ([], .ok ())
  else
    let scopes := if wantScopes then some (scopesPresent opts ctx) else none
    let args : AuthArgs := ⟨action, model, scopes, cfg.isPrivate, postBody⟩
    ([Ev.authE args], cfg.auth ctx args)

/-- Source lines 81 to 96: for each include, look the related record up
by the include where clause; authorize it for `view` when found, throw
the 404 not-found RestError otherwise.  The message reads the
resourceIdColumn off the controller options, which are not defaulted. -/
def verifyIncludes (cfg : CtrlCfg) (opts : Options) (env : ModelsEnv) (ctx : Ctx) :
    List Include → List Ev × Except JsErr Unit
  | [] => ([], .ok ())
  | incl :: rest =>
      let q : FindQ := ⟨incl.whereC, none, []⟩
      let colName := cfg.ctorResourceIdColumn.getD "undefined"
      match env.findOne incl.modelClassName q with
      | some m =>
          let a := authorizeCall cfg opts ctx "view" (.record m) false none
          match a.2 with
          | .error e => ([Ev.findOneE incl.modelClassName q] ++ a.1, .error e)
          | .ok _ =>
              let r := verifyIncludes cfg opts env ctx rest
              ([Ev.findOneE incl.modelClassName q] ++ a.1 ++ r.1, r.2)
      | none =>
          ([Ev.findOneE incl.modelClassName q], .error (.rest ⟨404, "not found",
            incl.asName ++ " with " ++ colName ++ " " ++
              objGetJs incl.whereC colName ++ " could not be found"⟩))

/-- Source lines 100 to 111: beforeShow hook, the rest show (find),
authorize with the record and scopes, afterShow hook, then
`ctx.state.data = model`. -/
def showAction (js : JsLib) (cfg : CtrlCfg) (h : Handler) (env : ModelsEnv) (ctx : Ctx) :
    PCOut :=
  match cfg.hookFn "beforeShow" with
  | .error e => ⟨[Ev.hookE "beforeShow"], none, .error e, h.options⟩
  | .ok _ =>
      let f := showOp js h env ctx
      match f.res with
      | .error e => ⟨[Ev.hookE "beforeShow"] ++ f.trace, none, .error e, h.options⟩
      | .ok model =>
          let a := authorizeCall cfg h.options ctx "show" (.record model) true none
          match a.2 with
          | .error e => ⟨[Ev.hookE "beforeShow"] ++ f.trace ++ a.1, none, .error e, h.options⟩
          | .ok _ =>
              match cfg.hookFn "afterShow" with
              | .error e => ⟨[Ev.hookE "beforeShow"] ++ f.trace ++ a.1 ++
                  [Ev.hookE "afterShow"], none, .error e, h.options⟩
              | .ok _ => ⟨[Ev.hookE "beforeShow"] ++ f.trace ++ a.1 ++
                  [Ev.hookE "afterShow", Ev.stateDataE (.record model)],
                  some (.record model), .ok (), h.options⟩

/-- Source lines 113 to 136: beforeIndex hook, the rest index, then the
collection authorize when the collection is non-empty and the
verify-includes pass otherwise, afterIndex hook, then
`ctx.state.data = models`. -/
def indexAction (js : JsLib) (cfg : CtrlCfg) (h : Handler) (env : ModelsEnv) (ctx : Ctx) :
    PCOut :=
  match cfg.hookFn "beforeIndex" with
  | .error e => ⟨[Ev.hookE "beforeIndex"], none, .error e, h.options⟩
  | .ok _ =>
      let r := indexOp js h env ctx
      match r.res with
      | .error e => ⟨[Ev.hookE "beforeIndex"] ++ r.trace, none, .error e, h.options⟩
      | .ok models =>
          let afterAuth : List Ev × Except JsErr Unit :=
            if models.collection.length ≠ 0 then
              authorizeCall cfg h.options ctx "index" (.coll models.collection) true none
            else
              match filterIncludes js h env ctx with
              | .error e => ([], .error e)
              | .ok incls => verifyIncludes cfg h.options env ctx incls
          match afterAuth.2 with
          | .error e => ⟨[Ev.hookE "beforeIndex"] ++ r.trace ++ afterAuth.1,
              none, .error e, h.options⟩
          | .ok _ =>
              match cfg.hookFn "afterIndex" with
              | .error e => ⟨[Ev.hookE "beforeIndex"] ++ r.trace ++ afterAuth.1 ++
                  [Ev.hookE "afterIndex"], none, .error e, h.options⟩
              | .ok _ => ⟨[Ev.hookE "beforeIndex"] ++ r.trace ++ afterAuth.1 ++
                  [Ev.hookE "afterIndex", Ev.stateDataE (.page models)],
                  some (.page models), .ok (), h.options⟩

/-- Source lines 138 to 147: authorize against the model class with the
post body, the rest create, afterCreate hook, then `ctx.state.data`. -/
def createAction (cfg : CtrlCfg) (h : Handler) (env : ModelsEnv) (ctx : Ctx) : PCOut :=
  let a := authorizeCall cfg h.options ctx "create" .cls false (some ctx.body)
  match a.2 with
  | .error e => ⟨a.1, none, .error e, h.options⟩
  | .ok _ =>
      let r := createOp h env ctx
      match r.res with
      | .error e => ⟨a.1 ++ r.trace, none, .error e, h.options⟩
      | .ok model =>
          match cfg.hookFn "afterCreate" with
          | .error e => ⟨a.1 ++ r.trace ++ [Ev.hookE "afterCreate"], none, .error e, h.options⟩
          | .ok _ => ⟨a.1 ++ r.trace ++ [Ev.hookE "afterCreate",
              Ev.stateDataE (.record model)], some (.record model), .ok (), h.options⟩

/-- Source lines 149 to 161: find the record, authorize with it, the
rest update, afterUpdate hook, then `ctx.state.data = model`. -/
def updateAction (js : JsLib) (cfg : CtrlCfg) (h : Handler) (env : ModelsEnv) (ctx : Ctx) :
    PCOut :=
  let f := findOp js h env ctx
  match f.res with
  | .error e => ⟨f.trace, none, .error e, h.options⟩
  | .ok model =>
      let a := authorizeCall cfg h.options ctx "update" (.record model) false none
      match a.2 with
      | .error e => ⟨f.trace ++ a.1, none, .error e, h.options⟩
      | .ok _ =>
          let u := updateOp h env ctx model
          match u.res with
          | .error e => ⟨f.trace ++ a.1 ++ u.trace, none, .error e, h.options⟩
          | .ok _ =>
              match cfg.hookFn "afterUpdate" with
              | .error e => ⟨f.trace ++ a.1 ++ u.trace ++ [Ev.hookE "afterUpdate"],
                  none, .error e, h.options⟩
              | .ok _ => ⟨f.trace ++ a.1 ++ u.trace ++ [Ev.hookE "afterUpdate",
                  Ev.stateDataE (.record model)], some (.record model), .ok (), h.options⟩

/-- Source lines 163 to 177: find the record, authorize with it,
beforeDestroy hook, the rest destroy, afterDestroy hook, then
`ctx.state.data = model`. -/
def destroyAction (js : JsLib) (cfg : CtrlCfg) (h : Handler) (env : ModelsEnv) (ctx : Ctx) :
    PCOut :=
  let f := findOp js h env ctx
  match f.res with
  | .error e => ⟨f.trace, none, .error e, h.options⟩
  | .ok model =>
      let a := authorizeCall cfg h.options ctx "destroy" (.record model) false none
      match a.2 with
      | .error e => ⟨f.trace ++ a.1, none, .error e, h.options⟩
      | .ok _ =>
          match cfg.hookFn "beforeDestroy" with
          | .error e => ⟨f.trace ++ a.1 ++ [Ev.hookE "beforeDestroy"],
              none, .error e, h.options⟩
          | .ok _ =>
              let d := destroyOp h env ctx model
              match d.res with
              | .error e => ⟨f.trace ++ a.1 ++ [Ev.hookE "beforeDestroy"] ++ d.trace,
                  none, .error e, h.options⟩
              | .ok _ =>
                  match cfg.hookFn "afterDestroy" with
                  | .error e => ⟨f.trace ++ a.1 ++ [Ev.hookE "beforeDestroy"] ++ d.trace ++
                      [Ev.hookE "afterDestroy"], none, .error e, h.options⟩
                  | .ok _ => ⟨f.trace ++ a.1 ++ [Ev.hookE "beforeDestroy"] ++ d.trace ++
                      [Ev.hookE "afterDestroy", Ev.stateDataE (.record model)],
                      some (.record model), .ok (), h.options⟩

/-! Trace predicates. -/

def isAuthEv : Ev → Bool
  | .authE _ => true
  | _ => false

def isStateEv : Ev → Bool
  | .stateDataE _ => true
  | _ => false

def isDbWriteEv : Ev → Bool
  | .dbCreateE _ => true
  | .dbUpdateE _ => true
  | .dbDestroyE => true
  | _ => false

def isDbUpdateEv : Ev → Bool
  | .dbUpdateE _ => true
  | _ => false

def isDbDestroyEv : Ev → Bool
  | .dbDestroyE => true
  | _ => false

/-- Every event satisfying `q` is preceded by an earlier event
satisfying `p`: scanning left to right, hitting a `q` before any `p`
fails; after the first `p` the rest of the list is covered. -/
def precededBy (p q : Ev → Bool) : List Ev → Bool
  | [] => true
  | e :: rest => if q e then false else if p e then true else precededBy p q rest

/-! Concrete fixtures used by witnesses and counterexamples. -/

def jsId : JsLib := ⟨fun s => s⟩

def emptyEnv : ModelsEnv :=
  ⟨fun _ => none, fun _ _ => none, fun r => r, fun r _ => r, fun r => r, fun _ => (0, [])⟩

def baseCfg : CtrlCfg :=
  ⟨false, fun _ _ => .ok (), fun _ => .ok (), false, none⟩

def defaultOptions : Options := computeOptions {}

def sampleHandler : Handler := ⟨defaultOptions, "User", ["User"]⟩

def scopedHandler : Handler :=
  ⟨{ defaultOptions with scopeModels := [ScopeModel.simple "user"] }, "Post", ["Post", "User"]⟩

def emptyCtx : Ctx := ⟨[], [], none, "http://example.org/users"⟩

def userParamCtx : Ctx := ⟨[], [("user", "abc-uuid")], none, "http://example.org/posts"⟩

def noModelsOptions : CtorOptions := { authorize := .fn }

/-! Claim theorems. -/

/-- C2 (code bug): `buildFilterIncludes` never produces an include for a
configured scope model.  For every non-empty filter-model list the first
loop iteration evaluates `paramName(modelName)` on the helper function
`modelName` itself and raises a TypeError, whether or not the merged
parameters contain the scope-model name; only an empty list returns, and
it returns no includes. -/
theorem C2_buildFilterIncludes_raises (js : JsLib) (h : Handler) (env : ModelsEnv)
    (ctx : Ctx) (m : ScopeModel) (ms : List ScopeModel) :
    buildFilterIncludes js h env ctx (m :: ms)
        = .error (.typeError "word.toLowerCase is not a function") ∧
      buildFilterIncludes js h env ctx [] = .ok [] := by
  constructor
  · cases m <;> rfl
  · rfl

/-- C4 (code bug): `columnKeyName` invokes the nonexistent
`pluralize.signular`, so it and `columnIdName` raise a TypeError on
every input, and `mapForeignKeyToId` raises that TypeError for every
non-empty foreign-key list (here: a record carrying the `campaignUuid`
alias with the shorthand descriptor); only the empty list returns the
record, unmapped. -/
theorem C4_mapForeignKeyToId_raises :
    columnKeyName "campaign" "uuid"
        = .error (.typeError "pluralize.signular is not a function") ∧
      columnIdName "campaign"
        = .error (.typeError "pluralize.signular is not a function") ∧
      mapForeignKeyToId jsId defaultOptions emptyEnv [("campaignUuid", "abc")]
          [ForeignKey.shorthand "campaign"]
        = .error (.typeError "pluralize.signular is not a function") ∧
      mapForeignKeyToId jsId defaultOptions emptyEnv [("campaignUuid", "abc")] []
        = .ok [("campaignUuid", "abc")] :=
  ⟨rfl, rfl, rfl, rfl⟩

/-- C10 (code bug): on an index request that filters on a configured
scope model (`user` parameter present, record absent from the database),
the action raises the `buildFilterIncludes` TypeError instead of the
claimed 404 verification, and populates no state; with no scope models
configured the empty result is returned with `state.data` populated and
no authorize call and no include verification at all. -/
theorem C10_emptyIndex_verification_unreachable :
    ((indexAction jsId baseCfg scopedHandler emptyEnv userParamCtx).res
        = .error (.typeError "word.toLowerCase is not a function")) ∧
      ((indexAction jsId baseCfg scopedHandler emptyEnv userParamCtx).stateData = none) ∧
      ((indexAction jsId baseCfg sampleHandler emptyEnv userParamCtx).res = .ok ()) ∧
      ((indexAction jsId baseCfg sampleHandler emptyEnv userParamCtx).stateData.isSome
        = true) ∧
      ((indexAction jsId baseCfg sampleHandler emptyEnv userParamCtx).trace.all
          (fun e => !(isAuthEv e)) = true) :=
  ⟨rfl, rfl, rfl, rfl, rfl⟩

/-- C8 (counterexample): a truthy authorize function does not guarantee
that construction succeeds — with `options.models` absent the
constructor still throws, refuting the claimed equivalence. -/
theorem C8_counterexample :
    noModelsOptions.authorize = AuthorizeOpt.fn ∧
      parkesControllerNew jsId (some "user") (some noModelsOptions)
        = .error (.jsError "You must supply options.models to the RestHandler constructor") :=
  ⟨rfl, rfl⟩

/-- C8 (amended): whenever `options.authorize` is falsy and not the
literal `false`, construction throws the authorize error — regardless of
every other option, so authorization can never be skipped by omission —
and, given a truthy name and a models map containing the model,
construction succeeds exactly when authorize is a function or the
literal `false`. -/
theorem C8_constructor_authorize_guard (js : JsLib) (name : String) (c : CtorOptions)
    (hn : ¬ name = "") (ms : List String) (hm : c.models = some ms)
    (hmem : ms.contains (modelNameOf js name) = true) :
    ((∃ hd, parkesControllerNew js (some name) (some c) = .ok hd) ↔
        (c.authorize = AuthorizeOpt.fn ∨ c.authorize = AuthorizeOpt.explicitFalse)) ∧
      (∀ (n' : Option String) (c' : Option CtorOptions),
        authorizeMissing ((c'.getD {}).authorize) = true →
          parkesControllerNew js n' c' = .error (.jsError
            "options.authorize is undefined and must be explicitly set to false to skip authorization")) := by
  constructor
  · constructor
    · rintro ⟨hd, hok⟩
      unfold parkesControllerNew at hok
      cases hauth : c.authorize with
      | undef => simp [hauth, authorizeMissing] at hok
      | explicitFalse => exact Or.inr rfl
      | fn => exact Or.inl rfl
    · intro hor
      have hmiss : authorizeMissing c.authorize = false := by
        rcases hor with hfn | hff
        · rw [hfn]; rfl
        · rw [hff]; rfl
      refine ⟨⟨computeOptions c, modelNameOf js name, ms⟩, ?_⟩
      unfold parkesControllerNew restHandlerNew
      simp [hmiss, hn, hm, hmem]
      exact (by simpa using hmem)
  · intro n' c' ha
    unfold parkesControllerNew
    simp [ha]

/-- Witness for C8 at a concrete valid configuration. -/
theorem C8_constructor_authorize_guard_witness :
    ((∃ hd, parkesControllerNew jsId (some "user")
          (some { models := some ["User"], authorize := .fn }) = .ok hd) ↔
        (({ models := some ["User"], authorize := .fn } : CtorOptions).authorize
            = AuthorizeOpt.fn ∨
          ({ models := some ["User"], authorize := .fn } : CtorOptions).authorize
            = AuthorizeOpt.explicitFalse)) ∧
      (∀ (n' : Option String) (c' : Option CtorOptions),
        authorizeMissing ((c'.getD {}).authorize) = true →
          parkesControllerNew jsId n' c' = .error (.jsError
            "options.authorize is undefined and must be explicitly set to false to skip authorization")) :=
  C8_constructor_authorize_guard jsId "user" { models := some ["User"], authorize := .fn }
    (by decide) ["User"] rfl (by decide)

theorem findOp_of_none (js : JsLib) (h : Handler) (env : ModelsEnv) (ctx : Ctx)
    (hmiss : env.findOne h.name (findQuery js h env ctx) = none) :
    findOp js h env ctx =
      ⟨[Ev.emitE "beforeFind", Ev.findOneE h.name (findQuery js h env ctx),
          Ev.emitE "afterFind"],
        .error (.rest ⟨404, "not found",
          "Resource " ++ h.name ++ " with " ++ h.options.resourceIdColumn ++ " " ++
            findIdValue js h ctx ++ " was not found"⟩), h.options⟩ := by
  simp only [findOp]
  rw [hmiss]

/-- C9: when the id route parameter matches no record, `find` throws the
404 not-found RestError whose message names the resource, the id column
and the interpolated id value, and the update and destroy actions
propagate it without performing any ORM write and without populating
`ctx.state.data`. -/
theorem C9_find_not_found (js : JsLib) (cfg : CtrlCfg) (h : Handler) (env : ModelsEnv)
    (ctx : Ctx) (hmiss : env.findOne h.name (findQuery js h env ctx) = none) :
    ((findOp js h env ctx).res = .error (.rest ⟨404, "not found",
        "Resource " ++ h.name ++ " with " ++ h.options.resourceIdColumn ++ " " ++
          findIdValue js h ctx ++ " was not found"⟩)) ∧
      ((updateAction js cfg h env ctx).res = .error (.rest ⟨404, "not found",
        "Resource " ++ h.name ++ " with " ++ h.options.resourceIdColumn ++ " " ++
          findIdValue js h ctx ++ " was not found"⟩)) ∧
      ((updateAction js cfg h env ctx).stateData = none) ∧
      ((updateAction js cfg h env ctx).trace.all (fun e => !(isDbWriteEv e)) = true) ∧
      ((destroyAction js cfg h env ctx).res = .error (.rest ⟨404, "not found",
        "Resource " ++ h.name ++ " with " ++ h.options.resourceIdColumn ++ " " ++
          findIdValue js h ctx ++ " was not found"⟩)) ∧
      ((destroyAction js cfg h env ctx).stateData = none) ∧
      ((destroyAction js cfg h env ctx).trace.all (fun e => !(isDbWriteEv e)) = true) := by
  have hF := findOp_of_none js h env ctx hmiss
  refine ⟨by rw [hF], ?_, ?_, ?_, ?_, ?_, ?_⟩ <;>
    simp [updateAction, destroyAction, hF, isDbWriteEv]

/-- Witness for C9: the empty database misses every id. -/
theorem C9_find_not_found_witness :
    ((findOp jsId sampleHandler emptyEnv emptyCtx).res = .error (.rest ⟨404, "not found",
        "Resource " ++ sampleHandler.name ++ " with " ++
          sampleHandler.options.resourceIdColumn ++ " " ++
          findIdValue jsId sampleHandler emptyCtx ++ " was not found"⟩)) ∧
      ((updateAction jsId baseCfg sampleHandler emptyEnv emptyCtx).res
        = .error (.rest ⟨404, "not found",
          "Resource " ++ sampleHandler.name ++ " with " ++
            sampleHandler.options.resourceIdColumn ++ " " ++
            findIdValue jsId sampleHandler emptyCtx ++ " was not found"⟩)) ∧
      ((updateAction jsId baseCfg sampleHandler emptyEnv emptyCtx).stateData = none) ∧
      ((updateAction jsId baseCfg sampleHandler emptyEnv emptyCtx).trace.all
        (fun e => !(isDbWriteEv e)) = true) ∧
      ((destroyAction jsId baseCfg sampleHandler emptyEnv emptyCtx).res
        = .error (.rest ⟨404, "not found",
          "Resource " ++ sampleHandler.name ++ " with " ++
            sampleHandler.options.resourceIdColumn ++ " " ++
            findIdValue jsId sampleHandler emptyCtx ++ " was not found"⟩)) ∧
      ((destroyAction jsId baseCfg sampleHandler emptyEnv emptyCtx).stateData = none) ∧
      ((destroyAction jsId baseCfg sampleHandler emptyEnv emptyCtx).trace.all
        (fun e => !(isDbWriteEv e)) = true) :=
  C9_find_not_found jsId baseCfg sampleHandler emptyEnv emptyCtx rfl

theorem objKeys_contains_eq_objHas (o : Obj) (k : String) :
    (objKeys o).contains k = objHas o k := by
  induction o with
  | nil => rfl
  | cons p ps ih =>
      have hcc : (objKeys (p :: ps)).contains k = (k == p.1 || (objKeys ps).contains k) := by
        simp only [objKeys, List.map_cons, List.contains_cons]
      rw [hcc, ih]
      show _ = (decide (p.1 = k) || objHas ps k)
      by_cases h : p.1 = k
      · simp [h]
      · have h2 : ¬ k = p.1 := fun hh => h hh.symm
        simp [h, h2]

/-- C1: a payload containing a restricted key makes create and update
throw the 400 restricted-field RestError before any database write (the
trace is empty); a payload with no restricted key passes
`blockRestrictedKeys`; and any payload an ORM write event carries is
free of restricted keys. -/
theorem C1_restricted_guard (h : Handler) (env : ModelsEnv) (ctx : Ctx)
    (payload record : Obj) (hbody : ctx.body = some payload) :
    ((∃ k ∈ h.options.restricted, objHas payload k = true) →
      ∃ e : RestError, e.status = 400 ∧ e.code = "restricted field" ∧
        (createOp h env ctx).res = .error (.rest e) ∧
        (updateOp h env ctx record).res = .error (.rest e) ∧
        (createOp h env ctx).trace = [] ∧
        (updateOp h env ctx record).trace = []) ∧
      ((∀ k ∈ h.options.restricted, objHas payload k = false) →
        blockRestrictedKeys h.options payload = .ok []) ∧
      (∀ r, Ev.dbCreateE r ∈ (createOp h env ctx).trace →
        ∀ k ∈ h.options.restricted, objHas r k = false) ∧
      (∀ r, Ev.dbUpdateE r ∈ (updateOp h env ctx record).trace →
        ∀ k ∈ h.options.restricted, objHas r k = false) := by
  cases hbd : h.options.restricted.filter (fun k => (objKeys payload).contains k) with
  | nil =>
      have hnone : ∀ k ∈ h.options.restricted, objHas payload k = false := by
        intro k hk
        have := List.filter_eq_nil_iff.mp hbd k hk
        rw [objKeys_contains_eq_objHas] at this
        simpa using this
      have hok : blockRestrictedKeys h.options payload = .ok [] := by
        simp only [blockRestrictedKeys]
        rw [hbd]
        simp
      refine ⟨?_, fun _ => hok, ?_, ?_⟩
      · rintro ⟨k, hk, hhk⟩
        rw [hnone k hk] at hhk
        cases hhk
      · intro r hr
        simp [createOp, hbody, hok] at hr
        rw [hr]
        exact hnone
      · intro r hr
        simp [updateOp, hbody, hok] at hr
        rw [hr]
        exact hnone
  | cons b bs =>
      have herr : blockRestrictedKeys h.options payload = .error (.rest ⟨400,
          "restricted field",
          "You may not update the fields: " ++ String.intercalate ", " (b :: bs)⟩) := by
        simp only [blockRestrictedKeys]
        rw [hbd]
        simp
      refine ⟨?_, ?_, ?_, ?_⟩
      · intro _
        exact ⟨⟨400, "restricted field",
            "You may not update the fields: " ++ String.intercalate ", " (b :: bs)⟩,
          rfl, rfl, by simp [createOp, hbody, herr], by simp [updateOp, hbody, herr],
          by simp [createOp, hbody, herr], by simp [updateOp, hbody, herr]⟩
      · intro hall
        exfalso
        have hb : b ∈ h.options.restricted.filter (fun k => (objKeys payload).contains k) := by
          rw [hbd]; exact List.mem_cons_self b bs
        rcases List.mem_filter.mp hb with ⟨hmem, hcont⟩
        rw [objKeys_contains_eq_objHas] at hcont
        rw [hall b hmem] at hcont
        cases hcont
      · intro r hr
        simp [createOp, hbody, herr] at hr
      · intro r hr
        simp [updateOp, hbody, herr] at hr

/-- Witness for C1 at a concrete restricted payload and a concrete clean
payload check via the same theorem instance. -/
theorem C1_restricted_guard_witness :
    ((∃ k ∈ sampleHandler.options.restricted, objHas [("id", "1")] k = true) →
      ∃ e : RestError, e.status = 400 ∧ e.code = "restricted field" ∧
        (createOp sampleHandler emptyEnv ⟨[], [], some [("id", "1")], ""⟩).res
          = .error (.rest e) ∧
        (updateOp sampleHandler emptyEnv ⟨[], [], some [("id", "1")], ""⟩ []).res
          = .error (.rest e) ∧
        (createOp sampleHandler emptyEnv ⟨[], [], some [("id", "1")], ""⟩).trace = [] ∧
        (updateOp sampleHandler emptyEnv ⟨[], [], some [("id", "1")], ""⟩ []).trace = []) ∧
      ((∀ k ∈ sampleHandler.options.restricted, objHas [("id", "1")] k = false) →
        blockRestrictedKeys sampleHandler.options [("id", "1")] = .ok []) ∧
      (∀ r, Ev.dbCreateE r ∈ (createOp sampleHandler emptyEnv
          ⟨[], [], some [("id", "1")], ""⟩).trace →
        ∀ k ∈ sampleHandler.options.restricted, objHas r k = false) ∧
      (∀ r, Ev.dbUpdateE r ∈ (updateOp sampleHandler emptyEnv
          ⟨[], [], some [("id", "1")], ""⟩ []).trace →
        ∀ k ∈ sampleHandler.options.restricted, objHas r k = false) :=
  C1_restricted_guard sampleHandler emptyEnv ⟨[], [], some [("id", "1")], ""⟩
    [("id", "1")] [] rfl

theorem findOp_optionsAfter (js : JsLib) (h : Handler) (env : ModelsEnv) (ctx : Ctx) :
    (findOp js h env ctx).optionsAfter = h.options := by
  unfold findOp
  dsimp only
  split <;> rfl

theorem indexOp_optionsAfter (js : JsLib) (h : Handler) (env : ModelsEnv) (ctx : Ctx) :
    (indexOp js h env ctx).optionsAfter = h.options := by
  unfold indexOp
  dsimp only
  split <;> rfl

theorem createOp_optionsAfter (h : Handler) (env : ModelsEnv) (ctx : Ctx) :
    (createOp h env ctx).optionsAfter = h.options := by
  unfold createOp
  dsimp only
  split
  · rfl
  · split <;> rfl

theorem updateOp_optionsAfter (h : Handler) (env : ModelsEnv) (ctx : Ctx) (record : Obj) :
    (updateOp h env ctx record).optionsAfter = h.options := by
  unfold updateOp
  dsimp only
  split
  · rfl
  · split <;> rfl

theorem showAction_optionsAfter (js : JsLib) (cfg : CtrlCfg) (h : Handler)
    (env : ModelsEnv) (ctx : Ctx) :
    (showAction js cfg h env ctx).optionsAfter = h.options := by
  unfold showAction
  dsimp only
  repeat' split
  all_goals rfl

theorem indexAction_optionsAfter (js : JsLib) (cfg : CtrlCfg) (h : Handler)
    (env : ModelsEnv) (ctx : Ctx) :
    (indexAction js cfg h env ctx).optionsAfter = h.options := by
  unfold indexAction
  dsimp only
  repeat' split
  all_goals rfl

theorem createAction_optionsAfter (cfg : CtrlCfg) (h : Handler)
    (env : ModelsEnv) (ctx : Ctx) :
    (createAction cfg h env ctx).optionsAfter = h.options := by
  unfold createAction
  dsimp only
  repeat' split
  all_goals rfl

theorem updateAction_optionsAfter (js : JsLib) (cfg : CtrlCfg) (h : Handler)
    (env : ModelsEnv) (ctx : Ctx) :
    (updateAction js cfg h env ctx).optionsAfter = h.options := by
  unfold updateAction
  dsimp only
  repeat' split
  all_goals rfl

theorem destroyAction_optionsAfter (js : JsLib) (cfg : CtrlCfg) (h : Handler)
    (env : ModelsEnv) (ctx : Ctx) :
    (destroyAction js cfg h env ctx).optionsAfter = h.options := by
  unfold destroyAction
  dsimp only
  repeat' split
  all_goals rfl

/-- C7: the options record is computed once by the constructor
(`computeOptions`, see `restHandlerNew`) and no operation — neither the
rest-handler operations nor the controller actions, nor any helper they
call — leaves `this.options` changed: the options after every call equal
the options before. -/
theorem C7_options_immutable (js : JsLib) (cfg : CtrlCfg) (h : Handler)
    (env : ModelsEnv) (ctx : Ctx) (record : Obj) :
    (findOp js h env ctx).optionsAfter = h.options ∧
      (showOp js h env ctx).optionsAfter = h.options ∧
      (indexOp js h env ctx).optionsAfter = h.options ∧
      (createOp h env ctx).optionsAfter = h.options ∧
      (updateOp h env ctx record).optionsAfter = h.options ∧
      (destroyOp h env ctx record).optionsAfter = h.options ∧
      (showAction js cfg h env ctx).optionsAfter = h.options ∧
      (indexAction js cfg h env ctx).optionsAfter = h.options ∧
      (createAction cfg h env ctx).optionsAfter = h.options ∧
      (updateAction js cfg h env ctx).optionsAfter = h.options ∧
      (destroyAction js cfg h env ctx).optionsAfter = h.options :=
  ⟨findOp_optionsAfter js h env ctx, findOp_optionsAfter js h env ctx,
    indexOp_optionsAfter js h env ctx, createOp_optionsAfter h env ctx,
    updateOp_optionsAfter h env ctx record, rfl,
    showAction_optionsAfter js cfg h env ctx, indexAction_optionsAfter js cfg h env ctx,
    createAction_optionsAfter cfg h env ctx, updateAction_optionsAfter js cfg h env ctx,
    destroyAction_optionsAfter js cfg h env ctx⟩

theorem objGet_limit_of_newQuery (base : Obj) (v : String) :
    objGet (objAssign (objAssign [] base) [("limit", v)]) "limit" = some v := by
  rw [objGet_objAssign _ _ _ (by simp [ObjWF])]
  simp [objGet, Option.or]

/-- C3: the pagination envelope echoes total, offset, limit and the
rows; `pages` is the ceiling of `total / limit` (the least page count
whose capacity covers the total); `prevUrl` is a link exactly when
`offset > 0` and then carries offset parameter `max(offset - limit, 0)`
(natural subtraction) and the limit; `nextUrl` is a link exactly when
`total > offset + limit` and then carries offset parameter
`offset + limit` and the limit. -/
theorem C3_formatPaginate_envelope (data : List Obj) (total limit offset : Nat)
    (slug : String) (query : Obj) (hl : 0 < limit) :
    ((formatPaginate data total limit offset slug query).collection = data) ∧
      ((formatPaginate data total limit offset slug query).pagination.total = total) ∧
      ((formatPaginate data total limit offset slug query).pagination.offset = offset) ∧
      ((formatPaginate data total limit offset slug query).pagination.limit = limit) ∧
      (total ≤ (formatPaginate data total limit offset slug query).pagination.pages * limit) ∧
      (∀ m : Nat, total ≤ m * limit →
        (formatPaginate data total limit offset slug query).pagination.pages ≤ m) ∧
      (offset = 0 →
        (formatPaginate data total limit offset slug query).pagination.prevUrl = none) ∧
      (0 < offset → ∃ q1 : Obj,
        (formatPaginate data total limit offset slug query).pagination.prevUrl
            = some (slug ++ "?" ++ qsStringify q1) ∧
          objGet q1 "offset" = some (toString (offset - limit)) ∧
          objGet q1 "limit" = some (toString limit)) ∧
      (total ≤ offset + limit →
        (formatPaginate data total limit offset slug query).pagination.nextUrl = none) ∧
      (offset + limit < total → ∃ q2 : Obj,
        (formatPaginate data total limit offset slug query).pagination.nextUrl
            = some (slug ++ "?" ++ qsStringify q2) ∧
          objGet q2 "offset" = some (toString (offset + limit)) ∧
          objGet q2 "limit" = some (toString limit)) := by
  have hmax : ((max ((offset : Int) - (limit : Int)) 0)).toNat = offset - limit := by
    omega
  refine ⟨rfl, rfl, rfl, rfl, ?_, ?_, ?_, ?_, ?_, ?_⟩
  · show total ≤ (total + limit - 1) / limit * limit
    have h1 := Nat.div_add_mod (total + limit - 1) limit
    have h2 := Nat.mod_lt (total + limit - 1) hl
    rw [Nat.mul_comm]
    omega
  · intro m hm
    show (total + limit - 1) / limit ≤ m
    rw [Nat.div_le_iff_le_mul_add_pred hl]
    rw [Nat.mul_comm] at hm
    omega
  · intro h0
    simp only [formatPaginate]
    simp [h0]
  · intro h0
    simp only [formatPaginate]
    rw [if_pos h0]
    refine ⟨_, rfl, ?_, ?_⟩
    · rw [objGet_objSet]
      simp [hmax]
    · rw [objGet_objSet]
      rw [if_neg (by simp)]
      exact objGet_limit_of_newQuery _ _
  · intro h0
    simp only [formatPaginate]
    rw [if_neg (by omega)]
  · intro h0
    simp only [formatPaginate]
    rw [if_pos (by omega)]
    refine ⟨_, rfl, ?_, ?_⟩
    · rw [objGet_objSet]
      simp
    · rw [objGet_objSet]
      rw [if_neg (by simp)]
      by_cases hoff : offset > 0
      · rw [if_pos hoff, objGet_objSet, if_neg (by simp)]
        exact objGet_limit_of_newQuery _ _
      · rw [if_neg hoff]
        exact objGet_limit_of_newQuery _ _

/-- Witness for C3 at a concrete page. -/
theorem C3_formatPaginate_envelope_witness :
    ((formatPaginate [[("a", "1")]] 25 10 10 "http://x/users" []).collection
        = [[("a", "1")]]) ∧
      ((formatPaginate [[("a", "1")]] 25 10 10 "http://x/users" []).pagination.total = 25) ∧
      ((formatPaginate [[("a", "1")]] 25 10 10 "http://x/users" []).pagination.offset = 10) ∧
      ((formatPaginate [[("a", "1")]] 25 10 10 "http://x/users" []).pagination.limit = 10) ∧
      (25 ≤ (formatPaginate [[("a", "1")]] 25 10 10 "http://x/users" []).pagination.pages
        * 10) ∧
      (∀ m : Nat, 25 ≤ m * 10 →
        (formatPaginate [[("a", "1")]] 25 10 10 "http://x/users" []).pagination.pages ≤ m) ∧
      (10 = 0 →
        (formatPaginate [[("a", "1")]] 25 10 10 "http://x/users" []).pagination.prevUrl
          = none) ∧
      (0 < 10 → ∃ q1 : Obj,
        (formatPaginate [[("a", "1")]] 25 10 10 "http://x/users" []).pagination.prevUrl
            = some ("http://x/users" ++ "?" ++ qsStringify q1) ∧
          objGet q1 "offset" = some (toString (10 - 10)) ∧
          objGet q1 "limit" = some (toString 10)) ∧
      (25 ≤ 10 + 10 →
        (formatPaginate [[("a", "1")]] 25 10 10 "http://x/users" []).pagination.nextUrl
          = none) ∧
      (10 + 10 < 25 → ∃ q2 : Obj,
        (formatPaginate [[("a", "1")]] 25 10 10 "http://x/users" []).pagination.nextUrl
            = some ("http://x/users" ++ "?" ++ qsStringify q2) ∧
          objGet q2 "offset" = some (toString (10 + 10)) ∧
          objGet q2 "limit" = some (toString 10)) :=
  C3_formatPaginate_envelope [[("a", "1")]] 25 10 10 "http://x/users" [] (by decide)

/-- C5 (counterexample): an index request whose result collection is
empty populates `ctx.state.data` although the configured authorize
function was never invoked, refuting the claim that every action calls
authorize before populating state. -/
theorem C5_counterexample :
    baseCfg.authorizeFalse = false ∧
      ((indexAction jsId baseCfg sampleHandler emptyEnv emptyCtx).stateData.isSome
        = true) ∧
      ((indexAction jsId baseCfg sampleHandler emptyEnv emptyCtx).trace.all
        (fun e => !(isAuthEv e)) = true) :=
  ⟨rfl, rfl, rfl⟩

theorem findOp_trace (js : JsLib) (h : Handler) (env : ModelsEnv) (ctx : Ctx) :
    (findOp js h env ctx).trace = [Ev.emitE "beforeFind",
      Ev.findOneE h.name (findQuery js h env ctx), Ev.emitE "afterFind"] := by
  unfold findOp
  dsimp only
  split <;> rfl

theorem findOp_of_some (js : JsLib) (h : Handler) (env : ModelsEnv) (ctx : Ctx)
    (m : Obj) (hhit : env.findOne h.name (findQuery js h env ctx) = some m) :
    (findOp js h env ctx).res = .ok m := by
  simp only [findOp]
  rw [hhit]

theorem authorizeCall_notFalse (cfg : CtrlCfg) (opts : Options) (ctx : Ctx)
    (action : String) (model : AuthModel) (w : Bool) (pb : Option (Option Obj))
    (hA : cfg.authorizeFalse = false) :
    authorizeCall cfg opts ctx action model w pb =
      ([Ev.authE ⟨action, model, if w then some (scopesPresent opts ctx) else none,
          cfg.isPrivate, pb⟩],
        cfg.auth ctx ⟨action, model, if w then some (scopesPresent opts ctx) else none,
          cfg.isPrivate, pb⟩) := by
  unfold authorizeCall
  rw [hA]
  simp

theorem authorizeCall_notFalse_true (cfg : CtrlCfg) (opts : Options) (ctx : Ctx)
    (action : String) (model : AuthModel) (pb : Option (Option Obj))
    (hA : cfg.authorizeFalse = false) :
    authorizeCall cfg opts ctx action model true pb =
      ([Ev.authE ⟨action, model, some (scopesPresent opts ctx), cfg.isPrivate, pb⟩],
        cfg.auth ctx ⟨action, model, some (scopesPresent opts ctx), cfg.isPrivate, pb⟩) := by
  rw [authorizeCall_notFalse _ _ _ _ _ _ _ hA]
  simp

theorem precededBy_append_neutral (p q : Ev → Bool) (l1 l2 : List Ev)
    (h : ∀ e ∈ l1, p e = false ∧ q e = false) :
    precededBy p q (l1 ++ l2) = precededBy p q l2 := by
  induction l1 with
  | nil => rfl
  | cons e es ih =>
      have he := h e (List.mem_cons_self e es)
      simp [precededBy, he.1, he.2, ih (fun x hx => h x (List.mem_cons_of_mem e hx))]

theorem precededBy_of_p_head (p q : Ev → Bool) (e : Ev) (l : List Ev)
    (hq : q e = false) (hp : p e = true) : precededBy p q (e :: l) = true := by
  simp [precededBy, hq, hp]

theorem precededBy_of_no_q (p q : Ev → Bool) (l : List Ev)
    (h : ∀ e ∈ l, q e = false) : precededBy p q l = true := by
  induction l with
  | nil => rfl
  | cons e es ih =>
      have he := h e (List.mem_cons_self e es)
      by_cases hp : p e = true
      · simp [precededBy, he, hp]
      · simp [precededBy, he, hp, ih (fun x hx => h x (List.mem_cons_of_mem e hx))]

theorem showAction_c5 (js : JsLib) (cfg : CtrlCfg) (h : Handler) (env : ModelsEnv)
    (ctx : Ctx) (hA : cfg.authorizeFalse = false) :
    precededBy isAuthEv isStateEv (showAction js cfg h env ctx).trace = true ∧
      ((showAction js cfg h env ctx).stateData.isSome = true →
        (showAction js cfg h env ctx).trace.any isAuthEv = true) := by
  have ht := findOp_trace js h env ctx
  unfold showAction showOp
  try dsimp only
  cases hbs : cfg.hookFn "beforeShow" with
  | error e => simp [*, precededBy, isAuthEv, isStateEv]
  | ok u =>
      try dsimp only
      cases hres : (findOp js h env ctx).res with
      | error e => simp [*, precededBy, isAuthEv, isStateEv]
      | ok model =>
          try dsimp only
          rw [authorizeCall_notFalse cfg h.options ctx "show" (.record model) true none hA]
          try dsimp only
          cases hau : cfg.auth ctx ⟨"show", .record model,
              some (scopesPresent h.options ctx), cfg.isPrivate, none⟩ with
          | error e => simp [*, precededBy, isAuthEv, isStateEv]
          | ok v =>
              try dsimp only
              cases haf : cfg.hookFn "afterShow" with
              | error e => simp [*, precededBy, isAuthEv, isStateEv]
              | ok w => simp [*, precededBy, isAuthEv, isStateEv]

theorem createAction_c5 (cfg : CtrlCfg) (h : Handler) (env : ModelsEnv)
    (ctx : Ctx) (hA : cfg.authorizeFalse = false) :
    precededBy isAuthEv isStateEv (createAction cfg h env ctx).trace = true ∧
      ((createAction cfg h env ctx).stateData.isSome = true →
        (createAction cfg h env ctx).trace.any isAuthEv = true) := by
  unfold createAction
  try dsimp only
  rw [authorizeCall_notFalse cfg h.options ctx "create" .cls false (some ctx.body) hA]
  try dsimp only
  cases hau : cfg.auth ctx ⟨"create", .cls, none, cfg.isPrivate, some ctx.body⟩ with
  | error e => simp [*, precededBy, isAuthEv, isStateEv]
  | ok v =>
      try dsimp only
      cases hres : (createOp h env ctx).res with
      | error e => simp [*, precededBy, isAuthEv, isStateEv]
      | ok model =>
          try dsimp only
          cases haf : cfg.hookFn "afterCreate" with
          | error e => simp [*, precededBy, isAuthEv, isStateEv]
          | ok w => simp [*, precededBy, isAuthEv, isStateEv]

theorem updateAction_c5 (js : JsLib) (cfg : CtrlCfg) (h : Handler) (env : ModelsEnv)
    (ctx : Ctx) (hA : cfg.authorizeFalse = false) :
    precededBy isAuthEv isStateEv (updateAction js cfg h env ctx).trace = true ∧
      ((updateAction js cfg h env ctx).stateData.isSome = true →
        (updateAction js cfg h env ctx).trace.any isAuthEv = true) := by
  have ht := findOp_trace js h env ctx
  unfold updateAction
  try dsimp only
  cases hres : (findOp js h env ctx).res with
  | error e => simp [*, precededBy, isAuthEv, isStateEv]
  | ok model =>
      try dsimp only
      rw [authorizeCall_notFalse cfg h.options ctx "update" (.record model) false none hA]
      try dsimp only
      cases hau : cfg.auth ctx ⟨"update", .record model, none, cfg.isPrivate, none⟩ with
      | error e => simp [*, precededBy, isAuthEv, isStateEv]
      | ok v =>
          try dsimp only
          cases hup : (updateOp h env ctx model).res with
          | error e => simp [*, precededBy, isAuthEv, isStateEv]
          | ok w =>
              try dsimp only
              cases haf : cfg.hookFn "afterUpdate" with
              | error e => simp [*, precededBy, isAuthEv, isStateEv]
              | ok x => simp [*, precededBy, isAuthEv, isStateEv]

theorem destroyAction_c5 (js : JsLib) (cfg : CtrlCfg) (h : Handler) (env : ModelsEnv)
    (ctx : Ctx) (hA : cfg.authorizeFalse = false) :
    precededBy isAuthEv isStateEv (destroyAction js cfg h env ctx).trace = true ∧
      ((destroyAction js cfg h env ctx).stateData.isSome = true →
        (destroyAction js cfg h env ctx).trace.any isAuthEv = true) := by
  have ht := findOp_trace js h env ctx
  unfold destroyAction
  try dsimp only
  cases hres : (findOp js h env ctx).res with
  | error e => simp [*, precededBy, isAuthEv, isStateEv]
  | ok model =>
      try dsimp only
      rw [authorizeCall_notFalse cfg h.options ctx "destroy" (.record model) false none hA]
      try dsimp only
      cases hau : cfg.auth ctx ⟨"destroy", .record model, none, cfg.isPrivate, none⟩ with
      | error e => simp [*, precededBy, isAuthEv, isStateEv]
      | ok v =>
          try dsimp only
          cases hbd : cfg.hookFn "beforeDestroy" with
          | error e => simp [*, precededBy, isAuthEv, isStateEv]
          | ok w =>
              try dsimp only
              cases hde : (destroyOp h env ctx model).res with
              | error e => simp [*, destroyOp, precededBy, isAuthEv, isStateEv]
              | ok x =>
                  try dsimp only
                  cases haf : cfg.hookFn "afterDestroy" with
                  | error e => simp [*, destroyOp, precededBy, isAuthEv, isStateEv]
                  | ok y => simp [*, destroyOp, precededBy, isAuthEv, isStateEv]

theorem indexOp_trace_neutral (js : JsLib) (h : Handler) (env : ModelsEnv) (ctx : Ctx) :
    ∀ e ∈ (indexOp js h env ctx).trace, isAuthEv e = false ∧ isStateEv e = false := by
  unfold indexOp
  try dsimp only
  split
  · simp
  · intro e he
    simp only [paginateOp] at he
    simp only [List.mem_append, List.mem_cons, List.mem_singleton,
      List.not_mem_nil, or_false, false_or] at he
    rcases he with (h1 | h1) | h1 <;> rw [h1] <;> exact ⟨rfl, rfl⟩

theorem precededBy_true_of_firstAuth (l : List Ev)
    (hsplit : ∃ l1 a l2, l = l1 ++ Ev.authE a :: l2 ∧
      ∀ e ∈ l1, isAuthEv e = false ∧ isStateEv e = false) :
    precededBy isAuthEv isStateEv l = true := by
  rcases hsplit with ⟨l1, a, l2, rfl, h1⟩
  rw [precededBy_append_neutral _ _ _ _ h1]
  exact precededBy_of_p_head _ _ _ _ rfl rfl

theorem indexAction_c5 (js : JsLib) (cfg : CtrlCfg) (h : Handler) (env : ModelsEnv)
    (ctx : Ctx) (hA : cfg.authorizeFalse = false) (pd : PageData)
    (hio : (indexOp js h env ctx).res = .ok pd) (hne : pd.collection.length ≠ 0) :
    precededBy isAuthEv isStateEv (indexAction js cfg h env ctx).trace = true := by
  have htn := indexOp_trace_neutral js h env ctx
  have hT : ∀ e ∈ Ev.hookE "beforeIndex" :: (indexOp js h env ctx).trace,
      isAuthEv e = false ∧ isStateEv e = false := by
    intro e he
    rcases List.mem_cons.mp he with h1 | h1
    · rw [h1]; exact ⟨rfl, rfl⟩
    · exact htn e h1
  unfold indexAction
  try dsimp only
  cases hbs : cfg.hookFn "beforeIndex" with
  | error e => simp [*, precededBy, isAuthEv, isStateEv]
  | ok u =>
      try dsimp only
      rw [hio]
      try dsimp only
      rw [if_pos hne]
      rw [authorizeCall_notFalse_true cfg h.options ctx "index" (.coll pd.collection)
        none hA]
      try dsimp only
      cases hau : cfg.auth ctx ⟨"index", .coll pd.collection,
          some (scopesPresent h.options ctx), cfg.isPrivate, none⟩ with
      | error e =>
          simp only [hau]
          try dsimp only
          exact precededBy_true_of_firstAuth _
            ⟨Ev.hookE "beforeIndex" :: (indexOp js h env ctx).trace,
              ⟨"index", .coll pd.collection, some (scopesPresent h.options ctx),
                cfg.isPrivate, none⟩, [], by simp, hT⟩
      | ok v =>
          simp only [hau]
          try dsimp only
          cases haf : cfg.hookFn "afterIndex" with
          | error e =>
              simp only [haf]
              try dsimp only
              exact precededBy_true_of_firstAuth _
                ⟨Ev.hookE "beforeIndex" :: (indexOp js h env ctx).trace,
                  ⟨"index", .coll pd.collection, some (scopesPresent h.options ctx),
                    cfg.isPrivate, none⟩, [Ev.hookE "afterIndex"], by simp, hT⟩
          | ok w =>
              simp only [haf]
              try dsimp only
              exact precededBy_true_of_firstAuth _
                ⟨Ev.hookE "beforeIndex" :: (indexOp js h env ctx).trace,
                  ⟨"index", .coll pd.collection, some (scopesPresent h.options ctx),
                    cfg.isPrivate, none⟩,
                  [Ev.hookE "afterIndex", Ev.stateDataE (.page pd)], by simp, hT⟩

theorem updateAction_c5_writeOrder (js : JsLib) (cfg : CtrlCfg) (h : Handler)
    (env : ModelsEnv) (ctx : Ctx) (hA : cfg.authorizeFalse = false) (m : Obj)
    (hhit : env.findOne h.name (findQuery js h env ctx) = some m) :
    precededBy (fun e => e = Ev.authE ⟨"update", AuthModel.record m, none,
        cfg.isPrivate, none⟩) isDbUpdateEv (updateAction js cfg h env ctx).trace
      = true := by
  have ht := findOp_trace js h env ctx
  have hok := findOp_of_some js h env ctx m hhit
  unfold updateAction
  try dsimp only
  rw [hok]
  try dsimp only
  rw [authorizeCall_notFalse cfg h.options ctx "update" (.record m) false none hA]
  try dsimp only
  cases hau : cfg.auth ctx ⟨"update", .record m, none, cfg.isPrivate, none⟩ with
  | error e => simp [*, precededBy, isDbUpdateEv]
  | ok v =>
      try dsimp only
      cases hup : (updateOp h env ctx m).res with
      | error e => simp [*, precededBy, isDbUpdateEv]
      | ok w =>
          try dsimp only
          cases haf : cfg.hookFn "afterUpdate" with
          | error e => simp [*, precededBy, isDbUpdateEv]
          | ok x => simp [*, precededBy, isDbUpdateEv]

theorem destroyAction_c5_writeOrder (js : JsLib) (cfg : CtrlCfg) (h : Handler)
    (env : ModelsEnv) (ctx : Ctx) (hA : cfg.authorizeFalse = false) (m : Obj)
    (hhit : env.findOne h.name (findQuery js h env ctx) = some m) :
    precededBy (fun e => e = Ev.authE ⟨"destroy", AuthModel.record m, none,
        cfg.isPrivate, none⟩) isDbDestroyEv (destroyAction js cfg h env ctx).trace
      = true := by
  have ht := findOp_trace js h env ctx
  have hok := findOp_of_some js h env ctx m hhit
  unfold destroyAction
  try dsimp only
  rw [hok]
  try dsimp only
  rw [authorizeCall_notFalse cfg h.options ctx "destroy" (.record m) false none hA]
  try dsimp only
  cases hau : cfg.auth ctx ⟨"destroy", .record m, none, cfg.isPrivate, none⟩ with
  | error e => simp [*, precededBy, isDbDestroyEv]
  | ok v =>
      try dsimp only
      cases hbd : cfg.hookFn "beforeDestroy" with
      | error e => simp [*, precededBy, isDbDestroyEv]
      | ok w =>
          try dsimp only
          cases hde : (destroyOp h env ctx m).res with
          | error e => simp [*, destroyOp, precededBy, isDbDestroyEv]
          | ok x =>
              try dsimp only
              cases haf : cfg.hookFn "afterDestroy" with
              | error e => simp [*, destroyOp, precededBy, isDbDestroyEv]
              | ok y => simp [*, destroyOp, precededBy, isDbDestroyEv]

/-- C5 (amended): with authorization configured (not the literal
`false`), the show, create, update and destroy actions call the
authorize function before populating `ctx.state.data`, and never
populate it without having called authorize; for update and destroy the
authorize call carrying the fetched record and the action name precedes
the record mutation or deletion.  For index this holds whenever the
returned collection is non-empty; an index request with an empty result
collection populates `ctx.state.data` without any authorize call (see
the counterexample), so the claim as stated fails there. -/
theorem C5_auth_before_state (js : JsLib) (cfg : CtrlCfg) (h : Handler)
    (env : ModelsEnv) (ctx : Ctx) (hA : cfg.authorizeFalse = false) :
    (precededBy isAuthEv isStateEv (showAction js cfg h env ctx).trace = true ∧
        ((showAction js cfg h env ctx).stateData.isSome = true →
          (showAction js cfg h env ctx).trace.any isAuthEv = true)) ∧
      (precededBy isAuthEv isStateEv (createAction cfg h env ctx).trace = true ∧
        ((createAction cfg h env ctx).stateData.isSome = true →
          (createAction cfg h env ctx).trace.any isAuthEv = true)) ∧
      (precededBy isAuthEv isStateEv (updateAction js cfg h env ctx).trace = true ∧
        ((updateAction js cfg h env ctx).stateData.isSome = true →
          (updateAction js cfg h env ctx).trace.any isAuthEv = true)) ∧
      (precededBy isAuthEv isStateEv (destroyAction js cfg h env ctx).trace = true ∧
        ((destroyAction js cfg h env ctx).stateData.isSome = true →
          (destroyAction js cfg h env ctx).trace.any isAuthEv = true)) ∧
      (∀ pd : PageData, (indexOp js h env ctx).res = .ok pd →
        pd.collection.length ≠ 0 →
          precededBy isAuthEv isStateEv (indexAction js cfg h env ctx).trace = true) ∧
      (∀ m : Obj, env.findOne h.name (findQuery js h env ctx) = some m →
        precededBy (fun e => e = Ev.authE ⟨"update", AuthModel.record m, none,
            cfg.isPrivate, none⟩) isDbUpdateEv (updateAction js cfg h env ctx).trace
          = true ∧
        precededBy (fun e => e = Ev.authE ⟨"destroy", AuthModel.record m, none,
            cfg.isPrivate, none⟩) isDbDestroyEv (destroyAction js cfg h env ctx).trace
          = true) :=
  ⟨showAction_c5 js cfg h env ctx hA,
    createAction_c5 cfg h env ctx hA,
    updateAction_c5 js cfg h env ctx hA,
    destroyAction_c5 js cfg h env ctx hA,
    fun pd hio hne => indexAction_c5 js cfg h env ctx hA pd hio hne,
    fun m hhit => ⟨updateAction_c5_writeOrder js cfg h env ctx hA m hhit,
      destroyAction_c5_writeOrder js cfg h env ctx hA m hhit⟩⟩

/-- A database environment where every lookup hits the same row. -/
def hitEnv : ModelsEnv :=
  ⟨fun _ => none, fun _ _ => some [("id", "1")], fun r => r, fun r _ => r, fun r => r,
    fun _ => (1, [[("id", "1")]])⟩

/-- Witness for the amended C5 at a concrete configuration whose
database lookups succeed. -/
theorem C5_auth_before_state_witness :
    (precededBy isAuthEv isStateEv
          (showAction jsId baseCfg sampleHandler hitEnv emptyCtx).trace = true ∧
        ((showAction jsId baseCfg sampleHandler hitEnv emptyCtx).stateData.isSome = true →
          (showAction jsId baseCfg sampleHandler hitEnv emptyCtx).trace.any isAuthEv
            = true)) ∧
      (precededBy isAuthEv isStateEv
          (createAction baseCfg sampleHandler hitEnv emptyCtx).trace = true ∧
        ((createAction baseCfg sampleHandler hitEnv emptyCtx).stateData.isSome = true →
          (createAction baseCfg sampleHandler hitEnv emptyCtx).trace.any isAuthEv
            = true)) ∧
      (precededBy isAuthEv isStateEv
          (updateAction jsId baseCfg sampleHandler hitEnv emptyCtx).trace = true ∧
        ((updateAction jsId baseCfg sampleHandler hitEnv emptyCtx).stateData.isSome
            = true →
          (updateAction jsId baseCfg sampleHandler hitEnv emptyCtx).trace.any isAuthEv
            = true)) ∧
      (precededBy isAuthEv isStateEv
          (destroyAction jsId baseCfg sampleHandler hitEnv emptyCtx).trace = true ∧
        ((destroyAction jsId baseCfg sampleHandler hitEnv emptyCtx).stateData.isSome
            = true →
          (destroyAction jsId baseCfg sampleHandler hitEnv emptyCtx).trace.any isAuthEv
            = true)) ∧
      (∀ pd : PageData, (indexOp jsId sampleHandler hitEnv emptyCtx).res = .ok pd →
        pd.collection.length ≠ 0 →
          precededBy isAuthEv isStateEv
            (indexAction jsId baseCfg sampleHandler hitEnv emptyCtx).trace = true) ∧
      (∀ m : Obj,
        hitEnv.findOne sampleHandler.name
            (findQuery jsId sampleHandler hitEnv emptyCtx) = some m →
        precededBy (fun e => e = Ev.authE ⟨"update", AuthModel.record m, none,
            baseCfg.isPrivate, none⟩) isDbUpdateEv
          (updateAction jsId baseCfg sampleHandler hitEnv emptyCtx).trace = true ∧
        precededBy (fun e => e = Ev.authE ⟨"destroy", AuthModel.record m, none,
            baseCfg.isPrivate, none⟩) isDbDestroyEv
          (destroyAction jsId baseCfg sampleHandler hitEnv emptyCtx).trace = true) :=
  C5_auth_before_state jsId baseCfg sampleHandler hitEnv emptyCtx rfl

end Parkes
